import Mathlib

/-!
Shallow embedding of the missing-value-handling and ingestion core of the
E2E-House-Pricing-Predictor repository.

A pandas `DataFrame` is modelled as an ordered list of named columns; each
column carries the kind pandas derives from its dtype (`numeric` columns are
the ones `select_dtypes(include="number")` picks) and a positional list of
cells, a cell being `none` for `NaN`/missing.  Numeric cell payloads are
modelled as rationals.  Python exceptions become an explicit error type and
the `logging.warning` diagnostic channel becomes a returned list of strings
(`logging.info` progress lines are unconditional and carry no decision, so
they are not part of the diagnostic channel).
-/

inductive Val where
  | num (q : ℚ)
  | str (s : String)
deriving DecidableEq, Repr

inductive ColKind where
  | numeric
  | categorical
deriving DecidableEq, Repr

structure Column where
  name : String
  kind : ColKind
  cells : List (Option Val)
deriving DecidableEq, Repr

structure DataFrame where
  cols : List Column
deriving DecidableEq, Repr

/-- Python exceptions that the embedded code can raise, with their message. -/
inductive PyError where
  | valueError (msg : String)
  | fileNotFoundError (msg : String)
  | indexError (msg : String)
deriving DecidableEq, Repr

/-- Number of rows of a DataFrame (every column shares this count in a
well-formed frame). -/
def DataFrame.rowCount (df : DataFrame) : Nat :=
  match df.cols with
  | [] => 0
  | c :: _ => c.cells.length

/-- The non-missing cells of a column, in row order (`Series.dropna`). -/
def nonMissingVals (c : Column) : List Val :=
  c.cells.filterMap id

/-- Count of non-missing cells of a column (`Series.count`). -/
def colNonMissingCount (c : Column) : Nat :=
  c.cells.countP Option.isSome

/-- Count of non-missing cells of row `i` across all columns. -/
def rowNonMissingCount (df : DataFrame) (i : Nat) : Nat :=
  df.cols.countP (fun c => (c.cells.getD i none).isSome)

/-- The retention test `DataFrame.dropna(axis=0, thresh=threshold)` applies to
row `i`: with a threshold, keep the row iff it has at least `threshold`
non-missing cells; without one (pandas default `how="any"`), keep it iff it
has no missing cell, i.e. all `cols.length` cells are present. -/
def keepRow (df : DataFrame) (threshold : Option Nat) (i : Nat) : Bool :=
  match threshold with
  | some t => t ≤ rowNonMissingCount df i
  | none => rowNonMissingCount df i = df.cols.length

/-- Indices of the rows `dropna(axis=0)` retains, in original order. -/
def keptRows (df : DataFrame) (threshold : Option Nat) : List Nat :=
  (List.range df.rowCount).filter (keepRow df threshold)

/-- `df.dropna(axis=0, thresh=threshold)`: every column is restricted to the
retained row indices, in order. -/
def dropnaRows (df : DataFrame) (threshold : Option Nat) : DataFrame :=
  ⟨df.cols.map (fun c =>
    { c with cells := (keptRows df threshold).map (fun i => c.cells.getD i none) })⟩

/-- The retention test `dropna(axis=1, thresh=threshold)` applies to a column. -/
def keepCol (threshold : Option Nat) (c : Column) : Bool :=
  match threshold with
  | some t => t ≤ colNonMissingCount c
  | none => colNonMissingCount c = c.cells.length

/-- `df.dropna(axis=1, thresh=threshold)`: retain the columns passing the
test, in original order, rows untouched. -/
def dropnaCols (df : DataFrame) (threshold : Option Nat) : DataFrame :=
  ⟨df.cols.filter (keepCol threshold)⟩

/-- `DropMissingValuesStrategy(axis, threshold)` from
`src/handle_missing_values.py`. -/
structure DropMissingValuesStrategy where
  axis : Nat := 0
  threshold : Option Nat := none
deriving DecidableEq, Repr

/-- `DropMissingValuesStrategy.handle`: `df.dropna(axis=self.axis,
thresh=self.threshold)`. -/
def DropMissingValuesStrategy.handle (s : DropMissingValuesStrategy)
    (df : DataFrame) : DataFrame :=
  if s.axis = 0 then dropnaRows df s.threshold else dropnaCols df s.threshold

/-- Numeric payload of a cell value; numeric-kind columns only hold `num`
cells in a well-formed frame, so the `str` branch is never exercised there. -/
def Val.toRat : Val → ℚ
  | .num q => q
  | .str _ => 0

/-- `Series.mean()` with pandas default `skipna=True`: the mean of the
non-missing cells, `none` (pandas `NaN`) when there are none. -/
def colMean (c : Column) : Option ℚ :=
  if ((nonMissingVals c).map Val.toRat).length = 0 then none
  else some (((nonMissingVals c).map Val.toRat).sum
    / (((nonMissingVals c).map Val.toRat).length : ℚ))

/-- The non-missing numeric cells of a column in ascending order, as pandas
sorts them to take a median. -/
def sortedVals (c : Column) : List ℚ :=
  List.insertionSort (· ≤ ·) ((nonMissingVals c).map Val.toRat)

/-- `Series.median()` with `skipna=True`: middle element of the sorted
non-missing cells, averaging the two middles for an even count; `none` when
there are none. -/
def colMedian (c : Column) : Option ℚ :=
  if (sortedVals c).length = 0 then none
  else if (sortedVals c).length % 2 = 1 then
    some ((sortedVals c).getD ((sortedVals c).length / 2) 0)
  else
    some (((sortedVals c).getD ((sortedVals c).length / 2 - 1) 0
      + (sortedVals c).getD ((sortedVals c).length / 2) 0) / 2)

/-- Ordering `Series.mode()` sorts its result by (columns are homogeneous in
practice; a numeric value is placed before text so the order is total). -/
def Val.le : Val → Val → Bool
  | .num a, .num b => a ≤ b
  | .str a, .str b => a ≤ b
  | .num _, .str _ => true
  | .str _, .num _ => false

/-- Least element of a list of values under `Val.le`. -/
def valMin (xs : List Val) : Option Val :=
  xs.foldl (fun acc v =>
    match acc with
    | none => some v
    | some w => if Val.le v w then some v else some w) none

/-- Highest multiplicity among the non-missing cells of the list. -/
def maxCount (vs : List Val) : Nat :=
  (vs.map (fun v => vs.count v)).foldl Nat.max 0

/-- `Series.mode().iloc[0]`: the smallest value of maximal multiplicity among
the non-missing cells (`mode()` drops NaN and returns the modes sorted
ascending); `none` models the empty `mode()` result of an all-missing
column, on which `.iloc[0]` raises `IndexError`. -/
def colModeFirst (c : Column) : Option Val :=
  let vs := nonMissingVals c
  valMin (vs.filter (fun v => vs.count v = maxCount vs))

/-- `cells.fillna(v)`: every missing cell becomes `v`, present cells are
untouched. -/
def fillMissing (cells : List (Option Val)) (v : Val) : List (Option Val) :=
  cells.map (fun x => match x with | some w => some w | none => some v)

/-- Fill one column from a per-column numeric statistic, as the `mean` and
`median` branches do via `df_cleaned[numerical_cols].fillna(df[numerical_cols].stat())`:
only numeric-dtype columns are selected, and a column whose statistic is
`NaN` (no non-missing cell) is left as is, since filling NaN with NaN keeps
NaN. -/
def fillStatCol (stat : Column → Option ℚ) (c : Column) : Column :=
  match c.kind with
  | .numeric =>
      match stat c with
      | some m => { c with cells := fillMissing c.cells (.num m) }
      | none => c
  | .categorical => c

/-- The `mean` branch applied to a whole frame. -/
def fillMeanDf (df : DataFrame) : DataFrame :=
  ⟨df.cols.map (fillStatCol colMean)⟩

/-- The `median` branch applied to a whole frame. -/
def fillMedianDf (df : DataFrame) : DataFrame :=
  ⟨df.cols.map (fillStatCol colMedian)⟩

/-- Message of the `IndexError` that `.iloc[0]` raises on the empty result of
`mode()` on an all-missing column. -/
def modeIndexErrorMsg : String :=
  "single positional indexer is out-of-bounds"

/-- The `mode` branch: `for col in df_cleaned.columns:
df_cleaned[col].fillna(df[col].mode().iloc[0], inplace=True)`.  Each column is
filled with its own mode; an all-missing column makes `.iloc[0]` raise. -/
def fillModeCols : List Column → Except PyError (List Column)
  | [] => .ok []
  | c :: cs =>
      match colModeFirst c with
      | none => .error (.indexError modeIndexErrorMsg)
      | some m =>
          match fillModeCols cs with
          | .ok rest => .ok ({ c with cells := fillMissing c.cells m } :: rest)
          | .error e => .error e

/-- Message of the `ValueError` pandas `fillna(None)` raises (the source
calls `df_cleaned.fillna(self.fill_value)` with `fill_value=None`). -/
def fillnaNoneMsg : String :=
  "Must specify a fill value or method."

/-- `FillMissingValuesStrategy(method, fill_value)` from
`src/handle_missing_values.py`. -/
structure FillMissingValuesStrategy where
  method : String := "mean"
  fill_value : Option Val := none
deriving DecidableEq, Repr

/-- Warning emitted by the unknown-method branch
(`logging.warning(f"... is an unknown method... No missing values handled.")`). -/
def unknownMethodWarning (method : String) : String :=
  method ++ " is an unknown method... No missing values handled."

/-- `FillMissingValuesStrategy.handle`: dispatch on `self.method`; the result
pairs the cleaned frame with the warnings emitted, and an uncaught Python
exception is an `Except.error`. -/
def FillMissingValuesStrategy.handle (s : FillMissingValuesStrategy)
    (df : DataFrame) : Except PyError (DataFrame × List String) :=
  if s.method = "mean" then .ok (fillMeanDf df, [])
  else if s.method = "median" then .ok (fillMedianDf df, [])
  else if s.method = "mode" then
    match fillModeCols df.cols with
    | .ok cs => .ok (⟨cs⟩, [])
    | .error e => .error e
  else if s.method = "constant" then
    match s.fill_value with
    | none => .error (.valueError fillnaNoneMsg)
    | some v =>
        .ok (⟨df.cols.map (fun c => { c with cells := fillMissing c.cells v })⟩, [])
  else .ok (df, [unknownMethodWarning s.method])

/-- Message of the `ValueError` raised by `handle_missing_values_step` for an
unsupported strategy name. -/
def unknownStrategyMsg (strategy : String) : String :=
  "The provided missing value handling strategy is unsupported/unknown: " ++ strategy

/-- `handle_missing_values_step(df, strategy)` from
`steps/handle_missing_values_step.py`: `"drop"` builds
`DropMissingValuesStrategy(axis=0)` (threshold defaulted), the four fill
names build `FillMissingValuesStrategy(method=strategy)` with `fill_value`
left at its `None` default, anything else raises `ValueError`. -/
def handle_missing_values_step (df : DataFrame) (strategy : String) :
    Except PyError (DataFrame × List String) :=
  if strategy = "drop" then
    .ok ((DropMissingValuesStrategy.mk 0 none).handle df, [])
  else if strategy ∈ ["mean", "median", "mode", "constant"] then
    FillMissingValuesStrategy.handle ⟨strategy, none⟩ df
  else
    .error (.valueError (unknownStrategyMsg strategy))

/-- Python `str.endswith(suffix)` on the character sequences of the two
strings. -/
def strEndsWith (s suffix2 : String) : Bool :=
  suffix2.data.isSuffixOf s.data

/-- `ZipDataIngestor.ingest` from `src/ingest_data.py`.  The filesystem is
abstracted: `extracted` is what `os.listdir("extracted_data")` returns after
`zip_ref.extractall`, and `read_csv` is the `pd.read_csv` parse of a staged
path into a frame. -/
def ZipDataIngestor.ingest (file_path : String) (extracted : List String)
    (read_csv : String → DataFrame) : Except PyError DataFrame :=
  if ¬ strEndsWith file_path ".zip" then
    .error (.valueError "The provided file is not a .zip file.")
  else
    let csv_files := extracted.filter (fun f => strEndsWith f ".csv")
    if csv_files.length = 0 then
      .error (.fileNotFoundError "No CSV file found in the extracted data.")
    else if csv_files.length > 1 then
      .error (.valueError "Multiple CSV files found. Please specify which one to use.")
    else
      .ok (read_csv ("extracted_data/" ++ csv_files.headD ""))

/-! ## Claim C1: drop strategy -/

/-- C1: with `axis=row` and threshold `T`, every retained row has non-missing
count ≥ T and every removed row has count < T; with threshold absent a row is
retained iff it has no missing cell; the column set (names and kinds) is
unchanged and retained rows keep their original relative order; symmetrically
for `axis=column` over per-column non-missing counts. -/
theorem drop_strategy_spec (df : DataFrame) (T : Nat) :
    ((DropMissingValuesStrategy.mk 0 (some T)).handle df = dropnaRows df (some T)) ∧
    (∀ i ∈ keptRows df (some T), T ≤ rowNonMissingCount df i) ∧
    (∀ i < df.rowCount, i ∉ keptRows df (some T) → rowNonMissingCount df i < T) ∧
    (∀ i, i ∈ keptRows df none ↔
       i < df.rowCount ∧ ∀ c ∈ df.cols, (c.cells.getD i none).isSome) ∧
    (∀ th, List.Sublist (keptRows df th) (List.range df.rowCount)) ∧
    (∀ th, (dropnaRows df th).cols.map (fun c => (c.name, c.kind))
        = df.cols.map (fun c => (c.name, c.kind))) ∧
    (∀ th, (dropnaRows df th).cols
        = df.cols.map (fun c =>
            { c with cells := (keptRows df th).map (fun i => c.cells.getD i none) })) ∧
    ((DropMissingValuesStrategy.mk 1 (some T)).handle df = dropnaCols df (some T)) ∧
    (∀ th, List.Sublist (dropnaCols df th).cols df.cols) ∧
    (∀ c ∈ (dropnaCols df (some T)).cols, T ≤ colNonMissingCount c) ∧
    (∀ c ∈ df.cols, c ∉ (dropnaCols df (some T)).cols → colNonMissingCount c < T) := by
  refine ⟨rfl, ?_, ?_, ?_, ?_, ?_, ?_, rfl, ?_, ?_, ?_⟩
  · intro i hi
    have h := (List.mem_filter.mp hi).2
    simpa [keepRow] using h
  · intro i hi hnot
    by_contra hle
    push_neg at hle
    exact hnot (List.mem_filter.mpr
      ⟨List.mem_range.mpr hi, by simpa [keepRow] using hle⟩)
  · intro i
    constructor
    · intro hi
      have hm := List.mem_filter.mp hi
      refine ⟨List.mem_range.mp hm.1, ?_⟩
      have h2 : rowNonMissingCount df i = df.cols.length := by
        simpa [keepRow] using hm.2
      exact fun c hc => (List.countP_eq_length.mp h2) c hc
    · rintro ⟨hlt, hall⟩
      refine List.mem_filter.mpr ⟨List.mem_range.mpr hlt, ?_⟩
      have h2 : rowNonMissingCount df i = df.cols.length :=
        List.countP_eq_length.mpr (fun c hc => hall c hc)
      simpa [keepRow] using h2
  · intro th
    exact List.filter_sublist _
  · intro th
    simp [dropnaRows, List.map_map]
  · intro th
    rfl
  · intro th
    exact List.filter_sublist _
  · intro c hc
    have h := (List.mem_filter.mp hc).2
    simpa [keepCol] using h
  · intro c hc hnot
    by_contra hle
    push_neg at hle
    exact hnot (List.mem_filter.mpr ⟨hc, by simpa [keepCol] using hle⟩)

/-- Example frame used by the drop-strategy witness: two columns, three rows,
row 0 complete, row 1 with one missing cell, row 2 all missing. -/
def dfDropEx : DataFrame :=
  ⟨[⟨"a", .numeric, [some (.num 1), none, none]⟩,
    ⟨"b", .categorical, [some (.str "u"), some (.str "v"), none]⟩]⟩

/-- C1 witness: the theorem instantiated at a concrete frame and threshold 1
shows the retained row 1 of `dfDropEx` has at least one non-missing cell. -/
theorem drop_strategy_spec_witness : 1 ≤ rowNonMissingCount dfDropEx 1 :=
  (drop_strategy_spec dfDropEx 1).2.1 1 (by decide)

/-! ## Helper lemmas about filling -/

theorem filterMap_id_length (l : List (Option Val)) :
    (l.filterMap id).length = l.countP Option.isSome := by
  induction l with
  | nil => rfl
  | cons x xs ih => cases x <;> simp [ih, List.countP_cons]

theorem fillMissing_get?_of_some (cells : List (Option Val)) (v w : Val) (i : Nat)
    (h : cells.get? i = some (some w)) :
    (fillMissing cells v).get? i = some (some w) := by
  rw [List.get?_eq_getElem?] at h ⊢
  rw [fillMissing, List.getElem?_map, h]
  rfl

theorem fillMissing_get?_of_none (cells : List (Option Val)) (v : Val) (i : Nat)
    (h : cells.get? i = some none) :
    (fillMissing cells v).get? i = some (some v) := by
  rw [List.get?_eq_getElem?] at h ⊢
  rw [fillMissing, List.getElem?_map, h]
  rfl

theorem fillMissing_all_isSome (cells : List (Option Val)) (v : Val) :
    ∀ x ∈ fillMissing cells v, x.isSome := by
  intro x hx
  obtain ⟨y, _, hy⟩ := List.mem_map.mp hx
  cases y <;> (rw [← hy]; rfl)

theorem fillMissing_of_all_isSome (cells : List (Option Val)) (v : Val)
    (h : ∀ x ∈ cells, x.isSome) : fillMissing cells v = cells := by
  induction cells with
  | nil => rfl
  | cons x xs ih =>
      cases x with
      | none => exact absurd (h none (by simp)) (by simp)
      | some w =>
          simp only [fillMissing, List.map_cons]
          exact congrArg _ (ih (fun y hy => h y (List.mem_cons_of_mem _ hy)))

theorem length_nonMissingVals (c : Column) :
    (nonMissingVals c).length = colNonMissingCount c :=
  filterMap_id_length c.cells

theorem colMean_isSome (c : Column) (h : 0 < colNonMissingCount c) :
    ∃ m, colMean c = some m := by
  have hcnt : 0 < c.cells.countP Option.isSome := h
  have hlen : ((nonMissingVals c).map Val.toRat).length ≠ 0 := by
    rw [List.length_map, length_nonMissingVals]
    exact Nat.pos_iff_ne_zero.mp h
  exact ⟨_, by rw [colMean, if_neg hlen]⟩

theorem colMean_pos_of_isSome (c : Column) (m : ℚ) (h : colMean c = some m) :
    0 < colNonMissingCount c := by
  by_contra hc
  push_neg at hc
  have h0 : colNonMissingCount c = 0 := by omega
  have hlen : ((nonMissingVals c).map Val.toRat).length = 0 := by
    rw [List.length_map, length_nonMissingVals]
    exact h0
  rw [colMean, if_pos hlen] at h
  exact Option.noConfusion h

theorem fillStatCol_eq_fill (c : Column) (hk : c.kind = ColKind.numeric) (m : ℚ)
    (hm : colMean c = some m) :
    fillStatCol colMean c = { c with cells := fillMissing c.cells (.num m) } := by
  simp [fillStatCol, hk, hm]

/-! ## Claim C2: mean fill -/

/-- C2: under `method="mean"`, the handle never raises and emits no
diagnostic; each numeric column with at least one non-missing cell has its
missing cells replaced by the column mean, every categorical column is left
entirely unchanged, and no previously-present cell of any column changes. -/
theorem fill_mean_spec (df : DataFrame) :
    (FillMissingValuesStrategy.handle ⟨"mean", none⟩ df = .ok (fillMeanDf df, [])) ∧
    ((fillMeanDf df).cols = df.cols.map (fillStatCol colMean)) ∧
    (∀ c ∈ df.cols, c.kind = ColKind.categorical → fillStatCol colMean c = c) ∧
    (∀ c ∈ df.cols, c.kind = ColKind.numeric → 0 < colNonMissingCount c →
      ∃ m, colMean c = some m ∧
        ∀ i, c.cells.get? i = some none →
          (fillStatCol colMean c).cells.get? i = some (some (Val.num m))) ∧
    (∀ c ∈ df.cols, ∀ i w, c.cells.get? i = some (some w) →
      (fillStatCol colMean c).cells.get? i = some (some w)) := by
  refine ⟨rfl, rfl, ?_, ?_, ?_⟩
  · intro c _ hk
    simp [fillStatCol, hk]
  · intro c _ hk hpos
    obtain ⟨m, hm⟩ := colMean_isSome c hpos
    refine ⟨m, hm, ?_⟩
    intro i hi
    rw [fillStatCol_eq_fill c hk m hm]
    exact fillMissing_get?_of_none c.cells (.num m) i hi
  · intro c _ i w hw
    cases hk : c.kind with
    | numeric =>
        cases hm : colMean c with
        | none => simpa [fillStatCol, hk, hm] using hw
        | some m =>
            rw [fillStatCol_eq_fill c hk m hm]
            exact fillMissing_get?_of_some c.cells (.num m) w i hw
    | categorical => simpa [fillStatCol, hk] using hw

/-- Example frame for the mean-fill witness: the numeric column `[1, missing, 3]`
of the spec next to a categorical column with a missing cell. -/
def dfMeanEx : DataFrame :=
  ⟨[⟨"n", .numeric, [some (.num 1), none, some (.num 3)]⟩,
    ⟨"c", .categorical, [some (.str "a"), none]⟩]⟩

/-- C2 witness: at `dfMeanEx` the handle succeeds with no diagnostic and the
categorical column with a missing cell is left unchanged. -/
theorem fill_mean_spec_witness :
    FillMissingValuesStrategy.handle ⟨"mean", none⟩ dfMeanEx
      = .ok (fillMeanDf dfMeanEx, []) ∧
    fillStatCol colMean ⟨"c", .categorical, [some (.str "a"), none]⟩
      = ⟨"c", .categorical, [some (.str "a"), none]⟩ :=
  ⟨(fill_mean_spec dfMeanEx).1,
   (fill_mean_spec dfMeanEx).2.2.1 _ (by decide) rfl⟩

/-! ## Claim C9: idempotence of mean fill -/

theorem map_idem {α : Type} (f : α → α) (h : ∀ a, f (f a) = f a) (l : List α) :
    (l.map f).map f = l.map f := by
  induction l with
  | nil => rfl
  | cons x xs ih => simp [h, ih]

theorem fillStatCol_colMean_idem (c : Column) :
    fillStatCol colMean (fillStatCol colMean c) = fillStatCol colMean c := by
  cases hk : c.kind with
  | categorical => simp [fillStatCol, hk]
  | numeric =>
      cases hm : colMean c with
      | none => simp [fillStatCol, hk, hm]
      | some m =>
          rw [fillStatCol_eq_fill c hk m hm]
          set c2 : Column := { c with cells := fillMissing c.cells (.num m) } with hc2
          have hk2 : c2.kind = ColKind.numeric := hk
          have hall : ∀ x ∈ c2.cells, x.isSome :=
            fillMissing_all_isSome c.cells (Val.num m)
          have hpos : 0 < colNonMissingCount c2 := by
            have h1 : 0 < colNonMissingCount c := colMean_pos_of_isSome c m hm
            have h2 : colNonMissingCount c ≤ c.cells.length := List.countP_le_length _
            have h3 : colNonMissingCount c2 = c2.cells.length :=
              List.countP_eq_length.mpr hall
            have h4 : c2.cells.length = c.cells.length := by
              simp [hc2, fillMissing]
            omega
          obtain ⟨m2, hm2⟩ := colMean_isSome c2 hpos
          rw [fillStatCol_eq_fill c2 hk2 m2 hm2,
            fillMissing_of_all_isSome c2.cells (Val.num m2) hall]

/-- C9: applying the mean fill twice yields the frame obtained by applying it
once — the second application is a no-op. -/
theorem fill_mean_idempotent (df : DataFrame) :
    FillMissingValuesStrategy.handle ⟨"mean", none⟩ df = .ok (fillMeanDf df, []) ∧
    FillMissingValuesStrategy.handle ⟨"mean", none⟩ (fillMeanDf df)
      = .ok (fillMeanDf df, []) := by
  refine ⟨rfl, ?_⟩
  have h : fillMeanDf (fillMeanDf df) = fillMeanDf df := by
    unfold fillMeanDf
    exact congrArg DataFrame.mk (map_idem _ fillStatCol_colMean_idem df.cols)
  calc FillMissingValuesStrategy.handle ⟨"mean", none⟩ (fillMeanDf df)
      = .ok (fillMeanDf (fillMeanDf df), []) := rfl
    _ = .ok (fillMeanDf df, []) := by rw [h]

/-! ## Helper lemmas for the mode branch -/

theorem valMin_step_some (xs : List Val) : ∀ (w : Val),
    ∃ m, xs.foldl (fun acc v =>
      match acc with
      | none => some v
      | some w2 => if Val.le v w2 then some v else some w2) (some w) = some m := by
  induction xs with
  | nil => intro w; exact ⟨w, rfl⟩
  | cons x xs ih =>
      intro w
      rw [List.foldl_cons]
      by_cases hle : Val.le x w
      · simpa [hle] using ih x
      · simpa [hle] using ih w

theorem valMin_isSome (xs : List Val) (h : xs ≠ []) : ∃ m, valMin xs = some m := by
  cases xs with
  | nil => exact absurd rfl h
  | cons x xs =>
      rw [valMin, List.foldl_cons]
      exact valMin_step_some xs x

theorem valMin_go_mem (xs : List Val) : ∀ (acc : Option Val) (m : Val),
    xs.foldl (fun acc v =>
      match acc with
      | none => some v
      | some w2 => if Val.le v w2 then some v else some w2) acc = some m →
    acc = some m ∨ m ∈ xs := by
  induction xs with
  | nil => intro acc m h; exact Or.inl h
  | cons x xs ih =>
      intro acc m h
      rw [List.foldl_cons] at h
      rcases ih _ m h with h1 | h1
      · cases acc with
        | none =>
            have h1' : some x = some m := h1
            rw [Option.some_inj.mp h1']
            exact Or.inr (List.mem_cons_self _ _)
        | some w =>
            have h1' : (if Val.le x w then some x else some w) = some m := h1
            by_cases hle : Val.le x w
            · rw [if_pos hle] at h1'
              rw [Option.some_inj.mp h1']
              exact Or.inr (List.mem_cons_self _ _)
            · rw [if_neg hle] at h1'
              exact Or.inl h1'
      · exact Or.inr (List.mem_cons_of_mem _ h1)

theorem valMin_mem (xs : List Val) (m : Val) (h : valMin xs = some m) : m ∈ xs := by
  rcases valMin_go_mem xs none m h with h1 | h1
  · exact Option.noConfusion h1
  · exact h1

theorem le_foldl_max (l : List Nat) : ∀ a, a ≤ l.foldl Nat.max a := by
  induction l with
  | nil => intro a; exact Nat.le_refl a
  | cons x xs ih =>
      intro a
      rw [List.foldl_cons]
      exact Nat.le_trans (Nat.le_max_left a x) (ih (Nat.max a x))

theorem foldl_max_le_of_mem (l : List Nat) : ∀ (a x : Nat), x ∈ l → x ≤ l.foldl Nat.max a := by
  induction l with
  | nil => intro a x hx; exact absurd hx (List.not_mem_nil x)
  | cons y ys ih =>
      intro a x hx
      rw [List.foldl_cons]
      rcases List.mem_cons.mp hx with h | h
      · subst h
        exact Nat.le_trans (Nat.le_max_right a x) (le_foldl_max ys (Nat.max a x))
      · exact ih (Nat.max a y) x h

theorem foldl_max_mem_or_init (l : List Nat) : ∀ a,
    l.foldl Nat.max a = a ∨ l.foldl Nat.max a ∈ l := by
  induction l with
  | nil => intro a; exact Or.inl rfl
  | cons x xs ih =>
      intro a
      rw [List.foldl_cons]
      rcases ih (Nat.max a x) with h | h
      · rcases Nat.le_total a x with hax | hax
        · have hm : Nat.max a x = x := Nat.max_eq_right hax
          rw [h, hm]
          exact Or.inr (List.mem_cons_self _ _)
        · have hm : Nat.max a x = a := Nat.max_eq_left hax
          rw [h, hm]
          exact Or.inl rfl
      · exact Or.inr (List.mem_cons_of_mem _ h)

theorem count_le_maxCount (vs : List Val) (w : Val) (hw : w ∈ vs) :
    vs.count w ≤ maxCount vs :=
  foldl_max_le_of_mem _ 0 _ (List.mem_map_of_mem _ hw)

theorem exists_count_eq_maxCount (vs : List Val) (hne : vs ≠ []) :
    ∃ v ∈ vs, vs.count v = maxCount vs := by
  rcases foldl_max_mem_or_init (vs.map (fun v => vs.count v)) 0 with h | h
  · obtain ⟨v, hv⟩ := List.exists_mem_of_ne_nil vs hne
    have h1 : vs.count v ≤ maxCount vs := count_le_maxCount vs v hv
    have h2 : 0 < vs.count v := List.count_pos_iff.mpr hv
    have h0 : maxCount vs = 0 := h
    omega
  · obtain ⟨v, hv, hc⟩ := List.mem_map.mp h
    exact ⟨v, hv, hc⟩

/-- `colModeFirst` of a column with at least one non-missing cell is a value of
that column of maximal multiplicity. -/
theorem colModeFirst_spec (c : Column) (hne : nonMissingVals c ≠ []) :
    ∃ m, colModeFirst c = some m ∧ m ∈ nonMissingVals c ∧
      ∀ w ∈ nonMissingVals c,
        (nonMissingVals c).count w ≤ (nonMissingVals c).count m := by
  obtain ⟨v, hv, hcv⟩ := exists_count_eq_maxCount _ hne
  have hvf : v ∈ (nonMissingVals c).filter
      (fun w => (nonMissingVals c).count w = maxCount (nonMissingVals c)) :=
    List.mem_filter.mpr ⟨hv, by simp [hcv]⟩
  obtain ⟨m, hm⟩ := valMin_isSome _ (List.ne_nil_of_mem hvf)
  have hmf := List.mem_filter.mp (valMin_mem _ m hm)
  refine ⟨m, hm, hmf.1, ?_⟩
  intro w hw
  have hcm : (nonMissingVals c).count m = maxCount (nonMissingVals c) := by
    simpa using hmf.2
  rw [hcm]
  exact count_le_maxCount _ w hw

theorem colModeFirst_eq_none (c : Column) (h : nonMissingVals c = []) :
    colModeFirst c = none := by
  rw [colModeFirst, h]
  rfl

theorem nonMissingVals_eq_nil (c : Column) (h : colNonMissingCount c = 0) :
    nonMissingVals c = [] := by
  have := length_nonMissingVals c
  rw [h] at this
  exact List.length_eq_zero.mp this

theorem nonMissingVals_ne_nil (c : Column) (h : 0 < colNonMissingCount c) :
    nonMissingVals c ≠ [] := by
  intro hnil
  have := length_nonMissingVals c
  rw [hnil] at this
  simp at this
  omega

/-- Result of the per-column mode fill when the column has a mode. -/
def modeFillCol (c : Column) : Column :=
  match colModeFirst c with
  | some m => { c with cells := fillMissing c.cells m }
  | none => c

theorem fillModeCols_ok (cols : List Column)
    (h : ∀ c ∈ cols, 0 < colNonMissingCount c) :
    fillModeCols cols = .ok (cols.map modeFillCol) := by
  induction cols with
  | nil => rfl
  | cons c cs ih =>
      obtain ⟨m, hm, -, -⟩ :=
        colModeFirst_spec c (nonMissingVals_ne_nil c (h c (List.mem_cons_self _ _)))
      have hrest := ih (fun c2 hc2 => h c2 (List.mem_cons_of_mem _ hc2))
      simp [fillModeCols, hm, hrest, modeFillCol, List.map_cons]

theorem fillModeCols_error (cols : List Column)
    (h : ∃ c ∈ cols, colNonMissingCount c = 0) :
    fillModeCols cols = .error (.indexError modeIndexErrorMsg) := by
  induction cols with
  | nil => simp at h
  | cons c cs ih =>
      rcases h with ⟨c2, hc2, h0⟩
      rcases List.mem_cons.mp hc2 with heq | hmem
      · subst heq
        have : colModeFirst c2 = none :=
          colModeFirst_eq_none c2 (nonMissingVals_eq_nil c2 h0)
        simp [fillModeCols, this]
      · cases hmode : colModeFirst c with
        | none => simp [fillModeCols, hmode]
        | some m =>
            have herr := ih ⟨c2, hmem, h0⟩
            simp [fillModeCols, hmode, herr]

theorem fillModeCols_ok_or_indexError (cols : List Column) :
    (∃ cs, fillModeCols cols = .ok cs) ∨
      fillModeCols cols = .error (.indexError modeIndexErrorMsg) := by
  induction cols with
  | nil => exact Or.inl ⟨[], rfl⟩
  | cons c cs ih =>
      cases hmode : colModeFirst c with
      | none => exact Or.inr (by simp [fillModeCols, hmode])
      | some m =>
          rcases ih with ⟨rest, hrest⟩ | herr
          · exact Or.inl ⟨{ c with cells := fillMissing c.cells m } :: rest,
              by simp [fillModeCols, hmode, hrest]⟩
          · exact Or.inr (by simp [fillModeCols, hmode, herr])

/-! ## Claim C3: mode fill and the all-missing column -/

/-- C3 counterexample: on a frame whose single column has no non-missing
cell, the mode fill raises `IndexError` (from `mode().iloc[0]` on the empty
mode of an all-missing column) instead of completing with the column skipped
and a diagnostic emitted. -/
theorem fill_mode_all_missing_raises :
    FillMissingValuesStrategy.handle ⟨"mode", none⟩
        ⟨[⟨"x", ColKind.numeric, [none, none]⟩]⟩
      = .error (.indexError modeIndexErrorMsg) := rfl

/-- C3 (amended): when every column has at least one non-missing cell, the
mode fill completes without raising, emits no diagnostic, and replaces each
column's missing cells with a most frequent non-missing value of that column
(the smallest among ties); but when some column has no non-missing cell the
handle raises `IndexError` rather than skipping the column with a
diagnostic. -/
theorem fill_mode_spec (df : DataFrame) :
    ((∀ c ∈ df.cols, 0 < colNonMissingCount c) →
      (FillMissingValuesStrategy.handle ⟨"mode", none⟩ df
        = .ok (⟨df.cols.map modeFillCol⟩, [])) ∧
      (∀ c ∈ df.cols, ∃ m, colModeFirst c = some m ∧ m ∈ nonMissingVals c ∧
        (∀ w ∈ nonMissingVals c,
          (nonMissingVals c).count w ≤ (nonMissingVals c).count m) ∧
        (modeFillCol c).cells = fillMissing c.cells m)) ∧
    ((∃ c ∈ df.cols, colNonMissingCount c = 0) →
      FillMissingValuesStrategy.handle ⟨"mode", none⟩ df
        = .error (.indexError modeIndexErrorMsg)) := by
  constructor
  · intro h
    constructor
    · have hok := fillModeCols_ok df.cols h
      show (match fillModeCols df.cols with
        | .ok cs => Except.ok ((⟨cs⟩ : DataFrame), ([] : List String))
        | .error e => .error e) = _
      rw [hok]
    · intro c hc
      obtain ⟨m, hm, hmem, hmax⟩ :=
        colModeFirst_spec c (nonMissingVals_ne_nil c (h c hc))
      exact ⟨m, hm, hmem, hmax, by simp [modeFillCol, hm]⟩
  · intro h
    have herr := fillModeCols_error df.cols h
    show (match fillModeCols df.cols with
      | .ok cs => Except.ok ((⟨cs⟩ : DataFrame), ([] : List String))
      | .error e => .error e) = _
    rw [herr]

/-- Example frame for the mode witness: a categorical column in which `"a"`
is the most frequent value, next to a numeric column. -/
def dfModeEx : DataFrame :=
  ⟨[⟨"c", .categorical, [some (.str "a"), none, some (.str "a"), some (.str "b")]⟩,
    ⟨"n", .numeric, [some (.num 5), none, some (.num 5), some (.num 7)]⟩]⟩

/-- C3 witness: on `dfModeEx`, where every column has a non-missing cell, the
mode handle completes with no diagnostic. -/
theorem fill_mode_spec_witness :
    FillMissingValuesStrategy.handle ⟨"mode", none⟩ dfModeEx
      = .ok (⟨dfModeEx.cols.map modeFillCol⟩, []) :=
  ((fill_mode_spec dfModeEx).1 (by decide)).1

/-! ## Claim C4: mean/median on an all-missing numeric column -/

theorem colMean_eq_none (c : Column) (h : colNonMissingCount c = 0) :
    colMean c = none := by
  rw [colMean, if_pos]
  rw [List.length_map, length_nonMissingVals]
  exact h

theorem colMedian_eq_none (c : Column) (h : colNonMissingCount c = 0) :
    colMedian c = none := by
  have hnil : nonMissingVals c = [] := nonMissingVals_eq_nil c h
  rw [colMedian, if_pos]
  rw [sortedVals, hnil]
  rfl

/-- C4 counterexample: with all cells of the only (numeric) column missing,
the mean fill completes and leaves the column unreplaced, but the diagnostic
channel stays empty — no non-fatal diagnostic is emitted for the skipped
column, contrary to the claim. -/
theorem fill_mean_all_missing_no_diagnostic :
    FillMissingValuesStrategy.handle ⟨"mean", none⟩
        ⟨[⟨"x", ColKind.numeric, [none, none]⟩]⟩
      = .ok (⟨[⟨"x", ColKind.numeric, [none, none]⟩]⟩, []) := by
  have h : colMean ⟨"x", ColKind.numeric, [none, none]⟩ = none :=
    colMean_eq_none _ rfl
  show Except.ok (fillMeanDf _, ([] : List String)) = _
  rw [fillMeanDf]
  simp [fillStatCol, h]

/-- C4 (amended): for `method="mean"` or `"median"`, the handle never fails:
it returns the frame with every column processed by the statistic and an
empty diagnostic list; a column with no non-missing cell is left entirely
unchanged (its missing cells unreplaced), though no diagnostic is emitted
for it. -/
theorem fill_stat_all_missing_skipped (df : DataFrame) (meth : String)
    (hm : meth = "mean" ∨ meth = "median") :
    (FillMissingValuesStrategy.handle ⟨meth, none⟩ df
      = .ok (⟨df.cols.map (fillStatCol
          (if meth = "mean" then colMean else colMedian))⟩, [])) ∧
    (∀ c ∈ df.cols, colNonMissingCount c = 0 →
      fillStatCol (if meth = "mean" then colMean else colMedian) c = c) := by
  rcases hm with hm | hm <;> subst hm
  · refine ⟨rfl, ?_⟩
    intro c _ h0
    cases hk : c.kind <;>
      simp [fillStatCol, hk, colMean_eq_none c h0]
  · refine ⟨rfl, ?_⟩
    intro c _ h0
    cases hk : c.kind <;>
      simp [fillStatCol, hk, colMedian_eq_none c h0]

/-- Example frame for the C4 witness: an all-missing numeric column next to a
fillable numeric column. -/
def dfAllMissEx : DataFrame :=
  ⟨[⟨"x", .numeric, [none, none]⟩,
    ⟨"y", .numeric, [some (.num 4), none]⟩]⟩

/-- C4 witness: at `dfAllMissEx` the median fill completes with no diagnostic
and the all-missing column `"x"` is unchanged. -/
theorem fill_stat_all_missing_skipped_witness :
    FillMissingValuesStrategy.handle ⟨"median", none⟩ dfAllMissEx
      = .ok (⟨dfAllMissEx.cols.map (fillStatCol
          (if "median" = "mean" then colMean else colMedian))⟩, []) ∧
    fillStatCol (if "median" = "mean" then colMean else colMedian)
        ⟨"x", .numeric, [none, none]⟩
      = ⟨"x", .numeric, [none, none]⟩ :=
  ⟨(fill_stat_all_missing_skipped dfAllMissEx "median" (Or.inr rfl)).1,
   (fill_stat_all_missing_skipped dfAllMissEx "median" (Or.inr rfl)).2
     ⟨"x", .numeric, [none, none]⟩ (by decide) rfl⟩

/-! ## Claim C5: constant fill with no literal -/

/-- C5: with `method="constant"` and no fill literal (`fill_value=None`, its
default), the handle raises for every input frame — pandas
`fillna(None)` rejects the call — and is never a silent no-op.  The spec
names this error condition `MissingFillValueError`; concretely it is the
`ValueError` pandas raises. -/
theorem fill_constant_no_literal_raises (df : DataFrame) :
    FillMissingValuesStrategy.handle ⟨"constant", none⟩ df
      = .error (.valueError fillnaNoneMsg) := rfl

/-! ## Claim C6: unrecognized fill method -/

/-- C6: an unrecognized method name never raises: the handle returns the
input frame unmodified together with one diagnostic warning. -/
theorem fill_unknown_method_no_op (df : DataFrame) (meth : String)
    (fv : Option Val)
    (h : meth ∉ ["mean", "median", "mode", "constant"]) :
    FillMissingValuesStrategy.handle ⟨meth, fv⟩ df
      = .ok (df, [unknownMethodWarning meth]) := by
  obtain ⟨h1, h2, h3, h4⟩ :
      meth ≠ "mean" ∧ meth ≠ "median" ∧ meth ≠ "mode" ∧ meth ≠ "constant" := by
    simpa using h
  simp [FillMissingValuesStrategy.handle, h1, h2, h3, h4]

/-- C6 witness: the method name `"foo"` on a one-column frame with a missing
cell: output equals input, one warning recorded. -/
theorem fill_unknown_method_no_op_witness :
    FillMissingValuesStrategy.handle ⟨"foo", none⟩
        ⟨[⟨"x", ColKind.numeric, [some (.num 1), none]⟩]⟩
      = .ok (⟨[⟨"x", ColKind.numeric, [some (.num 1), none]⟩]⟩,
          [unknownMethodWarning "foo"]) :=
  fill_unknown_method_no_op ⟨[⟨"x", ColKind.numeric, [some (.num 1), none]⟩]⟩
    "foo" none (by decide)

/-! ## Claim C7: cleaning-step strategy selection boundary -/

/-- C7: the step raises its fatal strategy-selection `ValueError` (the spec's
`InvalidStrategyParameter`) exactly for names outside
`{"drop","mean","median","mode","constant"}`; an inside name delegates to the
corresponding strategy and never produces the selection error itself (a
delegated strategy may still fail for its own reasons, with a different
error). -/
theorem step_selection_boundary (df : DataFrame) (s : String) :
    (handle_missing_values_step df s
        = .error (.valueError (unknownStrategyMsg s))
      ↔ s ∉ ["drop", "mean", "median", "mode", "constant"]) ∧
    (handle_missing_values_step df "drop" = .ok (dropnaRows df none, [])) ∧
    (∀ m ∈ ["mean", "median", "mode", "constant"],
      handle_missing_values_step df m
        = FillMissingValuesStrategy.handle ⟨m, none⟩ df) := by
  refine ⟨⟨?_, ?_⟩, rfl, ?_⟩
  · intro he hmem
    simp only [List.mem_cons, List.not_mem_nil, or_false] at hmem
    rcases hmem with h | h | h | h | h
    · subst h
      rw [show handle_missing_values_step df "drop"
          = .ok (dropnaRows df none, []) from rfl] at he
      exact Except.noConfusion he
    · subst h
      rw [show handle_missing_values_step df "mean"
          = .ok (fillMeanDf df, []) from rfl] at he
      exact Except.noConfusion he
    · subst h
      rw [show handle_missing_values_step df "median"
          = .ok (fillMedianDf df, []) from rfl] at he
      exact Except.noConfusion he
    · subst h
      have hstep : handle_missing_values_step df "mode"
          = (match fillModeCols df.cols with
             | .ok cs => Except.ok ((⟨cs⟩ : DataFrame), ([] : List String))
             | .error e => .error e) := rfl
      rcases fillModeCols_ok_or_indexError df.cols with ⟨cs, hcs⟩ | herr
      · rw [hstep, hcs] at he
        exact Except.noConfusion he
      · rw [hstep, herr] at he
        injection he with h1
        exact PyError.noConfusion h1
    · subst h
      rw [show handle_missing_values_step df "constant"
          = .error (.valueError fillnaNoneMsg) from rfl] at he
      injection he with h1
      injection h1 with h2
      exact absurd h2 (by decide)
  · intro hnot
    have h1 : s ≠ "drop" := fun h => hnot (by simp [h])
    have h2 : s ∉ ["mean", "median", "mode", "constant"] :=
      fun hm => hnot (List.mem_cons_of_mem _ hm)
    simp [handle_missing_values_step, h1, h2]
  · intro m hm
    simp only [List.mem_cons, List.not_mem_nil, or_false] at hm
    rcases hm with h | h | h | h <;> subst h <;> rfl

/-- C7 witness: the unrecognized name `"bogus"` makes the step raise the
selection error on a concrete frame. -/
theorem step_selection_boundary_witness :
    handle_missing_values_step ⟨[⟨"x", ColKind.numeric, [none]⟩]⟩ "bogus"
      = .error (.valueError (unknownStrategyMsg "bogus")) :=
  (step_selection_boundary ⟨[⟨"x", ColKind.numeric, [none]⟩]⟩ "bogus").1.mpr
    (by decide)

/-! ## Claim C8: archive ingestion -/

/-- C8: for a `.zip` path, scanning the staging directory with zero
recognized `.csv` files fails with the no-source error (the spec's
`SourceNotFoundError`, concretely `FileNotFoundError`); with two or more it
fails with the ambiguity error (the spec's `AmbiguousSourceError`, concretely
`ValueError`) rather than guessing; with exactly one match it parses that
file into the returned frame. -/
theorem zip_ingest_spec (file_path : String) (extracted : List String)
    (read_csv : String → DataFrame) (hz : strEndsWith file_path ".zip") :
    (extracted.filter (fun f => strEndsWith f ".csv") = [] →
      ZipDataIngestor.ingest file_path extracted read_csv
        = .error (.fileNotFoundError "No CSV file found in the extracted data.")) ∧
    (2 ≤ (extracted.filter (fun f => strEndsWith f ".csv")).length →
      ZipDataIngestor.ingest file_path extracted read_csv
        = .error (.valueError "Multiple CSV files found. Please specify which one to use.")) ∧
    (∀ f, extracted.filter (fun f2 => strEndsWith f2 ".csv") = [f] →
      ZipDataIngestor.ingest file_path extracted read_csv
        = .ok (read_csv ("extracted_data/" ++ f))) := by
  refine ⟨?_, ?_, ?_⟩
  · intro h
    simp [ZipDataIngestor.ingest, hz, h]
  · intro h
    have h0 : ¬ (extracted.filter (fun f => strEndsWith f ".csv")).length = 0 := by
      omega
    have h1 : (extracted.filter (fun f => strEndsWith f ".csv")).length > 1 := by
      omega
    simp [ZipDataIngestor.ingest, hz, h0, h1]
  · intro f h
    simp [ZipDataIngestor.ingest, hz, h]

/-- C8 witness: a staging scan finding exactly `AmesHousing.csv` among the
extracted entries parses that file. -/
theorem zip_ingest_spec_witness :
    ZipDataIngestor.ingest "archive.zip" ["AmesHousing.csv", "readme.txt"]
        (fun _ => ⟨[]⟩)
      = .ok ((fun _ => (⟨[]⟩ : DataFrame)) "extracted_data/AmesHousing.csv") :=
  (zip_ingest_spec "archive.zip" ["AmesHousing.csv", "readme.txt"]
      (fun _ => ⟨[]⟩) (by decide)).2.2 "AmesHousing.csv" (by decide)

/-! ## Claim C10: the step never supplies a fill literal -/

/-- C10: the cleaning step builds the constant fill strategy with
`fill_value` left at its absent default, so for every frame with at least one
missing cell, `strategy="constant"` always hits the no-literal error of the
constant method and never fills any cell with a caller-chosen constant. -/
theorem step_constant_never_fills (df : DataFrame)
    (_h : ∃ c ∈ df.cols, none ∈ c.cells) :
    handle_missing_values_step df "constant"
      = .error (.valueError fillnaNoneMsg) := rfl

/-- C10 witness: on a concrete frame with a missing cell the step's constant
strategy errors out. -/
theorem step_constant_never_fills_witness :
    handle_missing_values_step ⟨[⟨"x", ColKind.numeric, [none]⟩]⟩ "constant"
      = .error (.valueError fillnaNoneMsg) :=
  step_constant_never_fills ⟨[⟨"x", ColKind.numeric, [none]⟩]⟩
    ⟨⟨"x", ColKind.numeric, [none]⟩, by decide, by decide⟩

-- sanity examples (concrete evaluations of the embedding)
example :
    colMean ⟨"x", .numeric, [some (.num 1), none, some (.num 3)]⟩ = some 2 := by
  simp [colMean, nonMissingVals, Val.toRat]
  norm_num

example :
    dropnaRows ⟨[⟨"a", .numeric, [some (.num 1), none]⟩,
                 ⟨"b", .categorical, [some (.str "u"), some (.str "v")]⟩]⟩ none
      = ⟨[⟨"a", .numeric, [some (.num 1)]⟩,
          ⟨"b", .categorical, [some (.str "u")]⟩]⟩ := by
  decide

example :
    FillMissingValuesStrategy.handle ⟨"mode", none⟩ ⟨[⟨"x", .numeric, [none, none]⟩]⟩
      = .error (.indexError modeIndexErrorMsg) := rfl
